import Mathlib

/-!
Shallow embedding of `fancontrol` (src/main.rs), a sysfs-based fan
control utility, together with proofs of the specification's claims.

The hardware control tree (`/sys/class/hwmon`) is modelled as a list of
subtrees, each an association list of attribute files; fallible writes
are modelled by a per-subtree list of attribute names whose writes fail.
`f32` temperatures are modelled as rationals plus an explicit NaN value
(the arithmetic in the claims involves only values and constants that
`f32` represents and compares exactly); `io::ErrorKind` is modelled by
the inductive `ErrKind`.
-/

namespace Fancontrol

/-- Error kinds of `std::io::ErrorKind` that this program can produce or
propagate. -/
inductive ErrKind where
  | notFound
  | invalidData
  | invalidInput
  | ioError
  | permissionDenied
deriving DecidableEq, Repr

/-- An `f32` value as used by this program: NaN, or an exact (rational)
finite value.  All float constants in the source (40.0, 50.0, 60.0, 1000.0,
100.0, 255.0) and all integer-derived operands are exactly representable,
so rational arithmetic coincides with the `f32` arithmetic the claims
exercise. -/
inductive F32 where
  | nan : F32
  | fin : ℚ → F32
deriving DecidableEq

/-- Rust `f32` `<=` comparison: any comparison involving NaN is false. -/
def f32Le : F32 → F32 → Bool
  | F32.fin a, F32.fin b => decide (a ≤ b)
  | _, _ => false

/-- Rust `f32` `>` comparison: any comparison involving NaN is false. -/
def f32Gt : F32 → F32 → Bool
  | F32.fin a, F32.fin b => decide (b < a)
  | _, _ => false

/-- Rust `char::is_whitespace` (the Unicode White_Space property), used by
`str::trim`. -/
def isRustWhitespace (c : Char) : Bool :=
  (0x09 <= c.toNat && c.toNat <= 0x0d) || c.toNat = 0x20 ||
  c.toNat = 0x85 || c.toNat = 0xa0 || c.toNat = 0x1680 ||
  (0x2000 <= c.toNat && c.toNat <= 0x200a) ||
  c.toNat = 0x2028 || c.toNat = 0x2029 || c.toNat = 0x202f ||
  c.toNat = 0x205f || c.toNat = 0x3000

/-- Drop leading and trailing whitespace from a character list. -/
def trimChars (l : List Char) : List Char :=
  ((l.dropWhile isRustWhitespace).reverse.dropWhile isRustWhitespace).reverse

/-- Rust `str::trim`. -/
def rustTrim (s : String) : String :=
  String.mk (trimChars s.data)

/-- Accumulate the decimal value of a digit list; `none` on the first
non-digit character. -/
def parseDigitsAux : List Char → Nat → Option Nat
  | [], acc => some acc
  | c :: rest, acc =>
      if c.isDigit then parseDigitsAux rest (acc * 10 + (c.toNat - 48)) else none

/-- A nonempty all-digit character list parsed as a natural number. -/
def parseDigits : List Char → Option Nat
  | [] => none
  | l => parseDigitsAux l 0

/-- Rust `str::parse::<i32>` on a string: optional single sign, then a
nonempty digit run, within `i32` bounds. -/
def parseI32 (s : String) : Option Int :=
  let core : Option Int :=
    match s.data with
    | '+' :: rest => (parseDigits rest).map Int.ofNat
    | '-' :: rest => (parseDigits rest).map (fun n => -(n : Int))
    | l => (parseDigits l).map Int.ofNat
  match core with
  | some n => if -(2 ^ 31) ≤ n ∧ n < 2 ^ 31 then some n else none
  | none => none

/-- Rust `str::parse::<u8>` on a string: optional `+`, then a nonempty
digit run, value at most 255. -/
def parseU8 (s : String) : Option Nat :=
  let core : Option Nat :=
    match s.data with
    | '+' :: rest => parseDigits rest
    | l => parseDigits l
  match core with
  | some n => if n < 256 then some n else none
  | none => none

/-- One hwmon subtree: its attribute files (name → content) and the set of
attribute names whose writes fail (modelling `fs::write` errors). -/
structure Subtree where
  attrs : List (String × String)
  failWrites : List String

/-- First-match association lookup, modelling `fs::read_to_string` of an
attribute file: `none` means the file is absent (the read fails). -/
def lookupAttr : List (String × String) → String → Option String
  | [], _ => none
  | (k, v) :: rest, a => if k = a then some v else lookupAttr rest a

/-- `Path::exists` for an attribute file. -/
def hasAttr (s : Subtree) (a : String) : Bool :=
  (lookupAttr s.attrs a).isSome

/-- Replace (or append) an attribute's content. -/
def setAttrList : List (String × String) → String → String → List (String × String)
  | [], a, v => [(a, v)]
  | (k, w) :: rest, a, v =>
      if k = a then (a, v) :: rest else (k, w) :: setAttrList rest a v

/-- `fs::write` to an attribute file: fails iff the name is in the
subtree's fail list, otherwise updates the content. -/
def writeAttr (s : Subtree) (a v : String) : Option Subtree :=
  if a ∈ s.failWrites then none
  else some { s with attrs := setAttrList s.attrs a v }

/-- The control tree root (`/sys/class/hwmon`): either the list of its
child subtrees in directory-iteration order, or the error that
`fs::read_dir` fails with when the root is unreadable. -/
structure Root where
  dir : Except ErrKind (List Subtree)

/-- `const K10TEMP_SENSOR_NAME`. -/
def K10TEMP_SENSOR_NAME : String := "k10temp"

/-- `const SENSOR_CANDIDATES`. -/
def SENSOR_CANDIDATES : List String := ["nct6799", "nct6775", "nct7802", "as99127f"]

/-- The body of `find_hwmon_path`'s per-entry test: the entry's `name`
file is readable and its trimmed content equals `sensor_name` exactly. -/
def matchesName (s : Subtree) (sensor : String) : Bool :=
  match lookupAttr s.attrs "name" with
  | some content => rustTrim content == sensor
  | none => false

/-- The per-entry test of `find_hwmon_path_dynamic`: the trimmed `name`
content is one of `SENSOR_CANDIDATES`. -/
def matchesAnyCandidate (s : Subtree) : Bool :=
  match lookupAttr s.attrs "name" with
  | some content => SENSOR_CANDIDATES.any (fun c => c == rustTrim content)
  | none => false

/-- Index of the first list element satisfying `p`, starting from `i`. -/
def findFirst (p : Subtree → Bool) : List Subtree → Nat → Option Nat
  | [], _ => none
  | s :: rest, i => if p s then some i else findFirst p rest (i + 1)

/-- `find_hwmon_path`: scan the root's children in order and return the
index of the first whose `name` matches `sensor_name`; `NotFound` when no
child matches; a failing `read_dir` error is propagated as-is. -/
def find_hwmon_path (root : Root) (sensor_name : String) : Except ErrKind Nat :=
  match root.dir with
  | Except.error e => Except.error e
  | Except.ok l =>
      match findFirst (fun s => matchesName s sensor_name) l 0 with
      | some i => Except.ok i
      | none => Except.error ErrKind.notFound

/-- `find_hwmon_path_dynamic`: like `find_hwmon_path` but matching any of
`SENSOR_CANDIDATES`. -/
def find_hwmon_path_dynamic (root : Root) : Except ErrKind Nat :=
  match root.dir with
  | Except.error e => Except.error e
  | Except.ok l =>
      match findFirst matchesAnyCandidate l 0 with
      | some i => Except.ok i
      | none => Except.error ErrKind.notFound

/-- The subtree at index `i` of the root (meaningful when discovery
returned `i`). -/
def subtreeAt (root : Root) (i : Nat) : Option Subtree :=
  match root.dir with
  | Except.error _ => none
  | Except.ok l => l.get? i

/-- Replace the subtree at index `i`. -/
def setSubtreeAt (root : Root) (i : Nat) (s : Subtree) : Root :=
  match root.dir with
  | Except.error e => ⟨Except.error e⟩
  | Except.ok l => ⟨Except.ok (l.set i s)⟩

/-- `read_cpu_temperature`: locate the `k10temp` subtree, read
`temp1_input`, parse it (trimmed) as an `i32` of milli-degrees Celsius,
divide by 1000.  A missing attribute file makes the read fail with
`NotFound` (the kind `fs::read_to_string` yields for a missing file); an
unparseable content fails with `InvalidData`. -/
def read_cpu_temperature (root : Root) : Except ErrKind ℚ :=
  match find_hwmon_path root K10TEMP_SENSOR_NAME with
  | Except.error e => Except.error e
  | Except.ok i =>
      match subtreeAt root i with
      | none => Except.error ErrKind.ioError
      | some s =>
          match lookupAttr s.attrs "temp1_input" with
          | none => Except.error ErrKind.notFound
          | some raw =>
              match parseI32 (rustTrim raw) with
              | none => Except.error ErrKind.invalidData
              | some m => Except.ok ((m : ℚ) / 1000)

/-- `format!("pwm{}", i)`. -/
def pwmAttr (i : Nat) : String := "pwm" ++ toString i

/-- `format!("pwm{}_enable", i)`. -/
def pwmEnableAttr (i : Nat) : String := "pwm" ++ toString i ++ "_enable"

/-- `format!("pwm{}_max", i)`. -/
def pwmMaxAttr (i : Nat) : String := "pwm" ++ toString i ++ "_max"

/-- The enable-content → mode mapping of `list_pwm`'s `match`:
`"1"` is manual, `"2"` is auto, anything else unknown. -/
def enable_mode_label (enableTrimmed : String) : String :=
  match enableTrimmed with
  | "1" => "manual"
  | "2" => "auto"
  | _ => "unknown"

/-- The mode-string → enable-value mapping of `set_mode`'s `match`:
`"manual"` is `"1"`, `"auto"` is `"2"`, anything else is rejected. -/
def mode_to_enable_val (mode : String) : Option String :=
  match mode with
  | "manual" => some "1"
  | "auto" => some "2"
  | _ => none

/-- One row reported by `list_pwm`. -/
structure PwmEntry where
  index : Nat
  value : Nat
  percent : ℚ
  mode : String
deriving DecidableEq, Repr

/-- The max-scale used for index `i` of subtree `s`: content of
`pwmN_max` parsed as `u8` with default 255, or 255 when the file is
absent. -/
def maxScale (s : Subtree) (i : Nat) : Nat :=
  match lookupAttr s.attrs (pwmMaxAttr i) with
  | some raw => (parseU8 (rustTrim raw)).getD 255
  | none => 255

/-- The body of `list_pwm`'s loop for one index: an entry exactly when
both `pwmN` and `pwmN_enable` exist; value defaults to 0 on parse
failure; mode from the enable content; percent against the max-scale. -/
def pwm_entry (s : Subtree) (i : Nat) : Option PwmEntry :=
  match lookupAttr s.attrs (pwmAttr i), lookupAttr s.attrs (pwmEnableAttr i) with
  | some rawVal, some rawEnable =>
      let val : Nat := (parseU8 (rustTrim rawVal)).getD 0
      let mode : String := enable_mode_label (rustTrim rawEnable)
      let maxVal : Nat := maxScale s i
      some ⟨i, val, (val : ℚ) / (maxVal : ℚ) * 100, mode⟩
  | _, _ => none

/-- `list_pwm` restricted to a located subtree: the rows for indices
1..=7, indices with a missing attribute silently skipped. -/
def list_pwm_entries (s : Subtree) : List PwmEntry :=
  (List.range' 1 7).filterMap (pwm_entry s)

/-- `list_pwm`: discovery, then the rows of the located subtree. -/
def list_pwm (root : Root) : Except ErrKind (List PwmEntry) :=
  match find_hwmon_path_dynamic root with
  | Except.error e => Except.error e
  | Except.ok i =>
      match subtreeAt root i with
      | none => Except.error ErrKind.ioError
      | some s => Except.ok (list_pwm_entries s)

/-- `set_pwm pwm_index value`: discovery, then write `"1"` to
`pwmN_enable`, then write the decimal rendering of `value` to `pwmN`,
then report the percent of `value` against the max-scale.  Returns the
resulting tree state together with the result; a failing write yields
`IOError` and keeps every write already performed (no rollback). -/
def set_pwm (root : Root) (pwm_index value : Nat) : Root × Except ErrKind ℚ :=
  match find_hwmon_path_dynamic root with
  | Except.error e => (root, Except.error e)
  | Except.ok i =>
      match subtreeAt root i with
      | none => (root, Except.error ErrKind.ioError)
      | some s =>
          match writeAttr s (pwmEnableAttr pwm_index) "1" with
          | none => (root, Except.error ErrKind.ioError)
          | some s1 =>
              match writeAttr s1 (pwmAttr pwm_index) (toString value) with
              | none => (setSubtreeAt root i s1, Except.error ErrKind.ioError)
              | some s2 =>
                  let maxVal : Nat := maxScale s2 pwm_index
                  (setSubtreeAt root i s2,
                    Except.ok ((value : ℚ) / (maxVal : ℚ) * 100))

/-- `set_mode pwm_index mode`: discovery, then map `"manual"`/`"auto"` to
`"1"`/`"2"` — any other mode fails with `InvalidInput` before any write —
then write the mode value to `pwmN_enable`. -/
def set_mode (root : Root) (pwm_index : Nat) (mode : String) : Root × Except ErrKind Unit :=
  match find_hwmon_path_dynamic root with
  | Except.error e => (root, Except.error e)
  | Except.ok i =>
      match subtreeAt root i with
      | none => (root, Except.error ErrKind.ioError)
      | some s =>
          match mode_to_enable_val mode with
          | none => (root, Except.error ErrKind.invalidInput)
          | some modeVal =>
              match writeAttr s (pwmEnableAttr pwm_index) modeVal with
              | none => (root, Except.error ErrKind.ioError)
              | some s1 => (setSubtreeAt root i s1, Except.ok ())

/-- `temp_to_pwm`: the four-branch control policy.  The guards are `f32`
`<=` comparisons, so every guard is false on NaN and the catch-all arm
applies. -/
def temp_to_pwm (t : F32) : Nat :=
  if f32Le t (F32.fin 40) then 80
  else if f32Le t (F32.fin 50) then 128
  else if f32Le t (F32.fin 60) then 180
  else 255

/-- Observable actions of one daemon iteration. -/
inductive Event where
  | sample (t : ℚ)
  | applyDuty (idx duty : Nat)
  | sleep (secs : Nat)
deriving DecidableEq, Repr

/-- One iteration of `run_daemon`'s loop body: sample the temperature,
compute the duty, apply it via `set_pwm`, sleep 5 seconds; any failure
stops the iteration there and propagates the error. -/
def daemon_step (root : Root) (pwm_index : Nat) :
    List Event × Root × Except ErrKind Unit :=
  match read_cpu_temperature root with
  | Except.error e => ([], root, Except.error e)
  | Except.ok t =>
      let duty := temp_to_pwm (F32.fin t)
      match set_pwm root pwm_index duty with
      | (root1, Except.error e) => ([Event.sample t], root1, Except.error e)
      | (root1, Except.ok _) =>
          ([Event.sample t, Event.applyDuty pwm_index duty, Event.sleep 5],
            root1, Except.ok ())

/-- `run_daemon`, observed for `fuel` iterations (the source loop never
exits on its own; `fuel = 0` is the observation cut-off, not a program
state).  An iteration's error ends the run immediately with that error. -/
def run_daemon (fuel : Nat) (root : Root) (pwm_index : Nat) :
    List Event × Root × Except ErrKind Unit :=
  match fuel with
  | 0 => ([], root, Except.ok ())
  | Nat.succ n =>
      match daemon_step root pwm_index with
      | (tr, root1, Except.error e) => (tr, root1, Except.error e)
      | (tr, root1, Except.ok _) =>
          let rest := run_daemon n root1 pwm_index
          (tr ++ rest.1, rest.2.1, rest.2.2)

/-- Demo subtree of the spec's sensor example: named `k10temp` (with the
trailing newline sysfs produces) with `temp1_input` = 45000. -/
def demoK10Sub : Subtree := ⟨[("name", "k10temp\n"), ("temp1_input", "45000\n")], []⟩

/-- Demo root holding only `demoK10Sub`. -/
def demoK10Root : Root := ⟨Except.ok [demoK10Sub]⟩

/-- Demo actuator subtree of the spec's examples: a supported chip with
`pwm1` = 128, `pwm1_enable` = 1 and no `pwm1_max`. -/
def demoActSub : Subtree := ⟨[("name", "nct6775\n"), ("pwm1", "128"), ("pwm1_enable", "1")], []⟩

/-- Demo root holding only `demoActSub`. -/
def demoActRoot : Root := ⟨Except.ok [demoActSub]⟩

/-- Demo actuator subtree whose `pwm1_enable` write fails. -/
def demoFailEnableSub : Subtree :=
  ⟨[("name", "nct6775"), ("pwm1", "90"), ("pwm1_enable", "2")], ["pwm1_enable"]⟩

/-- Demo root with a readable `k10temp` sensor and an actuator subtree
whose enable write fails: one daemon iteration reads the temperature and
then fails to apply the duty. -/
def demoDaemonRoot : Root := ⟨Except.ok [demoK10Sub, demoFailEnableSub]⟩

/-- Demo root with no subtrees at all: every discovery fails. -/
def demoEmptyRoot : Root := ⟨Except.ok []⟩

/-- The temperature `demoK10Root`/`demoDaemonRoot` reads: 45000 milli-degrees
over 1000. -/
def demoTemp : ℚ := ((45000 : ℤ) : ℚ) / 1000

/-! ## Helper lemmas -/

theorem temp_to_pwm_fin (q : ℚ) :
    temp_to_pwm (F32.fin q) =
      if q ≤ 40 then 80 else if q ≤ 50 then 128 else if q ≤ 60 then 180 else 255 := by
  simp [temp_to_pwm, f32Le]

theorem findFirst_eq_none_iff (p : Subtree → Bool) (l : List Subtree) (i : Nat) :
    findFirst p l i = none ↔ ∀ s ∈ l, p s = false := by
  induction l generalizing i with
  | nil => simp [findFirst]
  | cons s rest ih =>
      simp only [findFirst]
      by_cases h : p s
      · simp [h]
      · simp [h, ih]

theorem findFirst_append_first (p : Subtree → Bool) (pre : List Subtree) (s : Subtree)
    (post : List Subtree) (h1 : ∀ s' ∈ pre, p s' = false) (h2 : p s = true) (i : Nat) :
    findFirst p (pre ++ s :: post) i = some (i + pre.length) := by
  induction pre generalizing i with
  | nil => simp [findFirst, h2]
  | cons s' rest ih =>
      have hs' : p s' = false := h1 s' (by simp)
      have hrest : ∀ x ∈ rest, p x = false := fun x hx => h1 x (by simp [hx])
      show (if p s' = true then some i else findFirst p (rest ++ s :: post) (i + 1)) =
        some (i + (s' :: rest).length)
      rw [hs', if_neg (by simp), ih hrest (i + 1)]
      simp only [List.length_cons, Option.some.injEq]
      omega

theorem lookupAttr_set_self (attrs : List (String × String)) (a v : String) :
    lookupAttr (setAttrList attrs a v) a = some v := by
  induction attrs with
  | nil => simp [setAttrList, lookupAttr]
  | cons kv rest ih =>
      obtain ⟨k, w⟩ := kv
      by_cases h : k = a
      · simp [setAttrList, h, lookupAttr]
      · simp [setAttrList, h, lookupAttr, ih]

theorem lookupAttr_set_ne (attrs : List (String × String)) (a v a' : String) (h : a' ≠ a) :
    lookupAttr (setAttrList attrs a v) a' = lookupAttr attrs a' := by
  induction attrs with
  | nil => simp [setAttrList, lookupAttr, if_neg (Ne.symm h)]
  | cons kv rest ih =>
      obtain ⟨k, w⟩ := kv
      by_cases hk : k = a
      · subst hk
        simp [setAttrList, lookupAttr, if_neg (Ne.symm h)]
      · simp [setAttrList, hk, lookupAttr, ih]

theorem pwmAttr_ne_enable (i : Nat) : pwmAttr i ≠ pwmEnableAttr i := by
  intro h
  have hlen := congrArg String.length h
  have h7 : ("_enable" : String).length = 7 := rfl
  simp only [pwmAttr, pwmEnableAttr, String.length_append, h7] at hlen
  omega

theorem pwmMaxAttr_ne_pwm (i : Nat) : pwmMaxAttr i ≠ pwmAttr i := by
  intro h
  have hlen := congrArg String.length h
  have h4 : ("_max" : String).length = 4 := rfl
  simp only [pwmAttr, pwmMaxAttr, String.length_append, h4] at hlen
  omega

theorem pwmMaxAttr_ne_enable (i : Nat) : pwmMaxAttr i ≠ pwmEnableAttr i := by
  intro h
  have hlen := congrArg String.length h
  have h4 : ("_max" : String).length = 4 := rfl
  have h7 : ("_enable" : String).length = 7 := rfl
  simp only [pwmEnableAttr, pwmMaxAttr, String.length_append, h4, h7] at hlen
  omega

theorem dropWhile_all_left (p : Char → Bool) (a b : List Char) (h : a.all p) :
    (a ++ b).dropWhile p = b.dropWhile p := by
  induction a with
  | nil => simp
  | cons c rest ih =>
      simp only [List.all_cons, Bool.and_eq_true] at h
      simp [List.dropWhile, h.1, ih h.2]

theorem dropWhile_all_eq_nil (p : Char → Bool) (a : List Char) (h : a.all p) :
    a.dropWhile p = [] := by
  have := dropWhile_all_left p a [] h
  simpa using this

theorem trimChars_surround (ws1 core ws2 : List Char)
    (h1 : ws1.all isRustWhitespace) (h2 : ws2.all isRustWhitespace) :
    trimChars (ws1 ++ core ++ ws2) = trimChars core := by
  unfold trimChars
  rw [List.append_assoc, dropWhile_all_left _ _ _ h1]
  rcases hd : (core.dropWhile isRustWhitespace).isEmpty with hfalse | htrue
  · -- the trimmed core is nonempty
    rw [List.dropWhile_append, hd]
    simp only [Bool.false_eq_true, if_false]
    rw [List.reverse_append]
    rw [dropWhile_all_left _ _ _ (by rw [List.all_reverse]; exact h2)]
  · -- the core is all whitespace: both sides trim to nothing
    rw [List.dropWhile_append, hd]
    simp only [if_true]
    rw [dropWhile_all_eq_nil _ _ h2]
    simp only [List.isEmpty_iff] at hd
    rw [hd]

theorem rustTrim_surround (content sensor : String) (ws1 ws2 : List Char)
    (h1 : ws1.all isRustWhitespace) (h2 : ws2.all isRustWhitespace)
    (hfix : trimChars sensor.data = sensor.data)
    (hcontent : content.data = ws1 ++ sensor.data ++ ws2) :
    rustTrim content = sensor := by
  show String.mk (trimChars content.data) = sensor
  rw [hcontent, trimChars_surround _ _ _ h1 h2, hfix]

theorem pwm_entry_index (s : Subtree) (i : Nat) (e : PwmEntry)
    (h : pwm_entry s i = some e) : e.index = i := by
  unfold pwm_entry at h
  rcases h1 : lookupAttr s.attrs (pwmAttr i) with _ | rawVal <;>
    rcases h2 : lookupAttr s.attrs (pwmEnableAttr i) with _ | rawEnable <;>
      simp [h1, h2] at h
  rw [← h]

theorem pwm_entry_isSome (s : Subtree) (i : Nat) :
    (pwm_entry s i).isSome = (hasAttr s (pwmAttr i) && hasAttr s (pwmEnableAttr i)) := by
  unfold pwm_entry hasAttr
  rcases lookupAttr s.attrs (pwmAttr i) with _ | rawVal <;>
    rcases lookupAttr s.attrs (pwmEnableAttr i) with _ | rawEnable <;> simp

theorem mem_filterMap_pwm_entry (s : Subtree) (L : List Nat) (i : Nat) :
    (∃ e ∈ L.filterMap (pwm_entry s), e.index = i) ↔
      (i ∈ L ∧ (pwm_entry s i).isSome) := by
  constructor
  · rintro ⟨e, he, hei⟩
    rw [List.mem_filterMap] at he
    obtain ⟨j, hj, hje⟩ := he
    have : e.index = j := pwm_entry_index s j e hje
    rw [hei] at this
    subst this
    exact ⟨hj, by rw [hje]; rfl⟩
  · rintro ⟨hi, hsome⟩
    obtain ⟨e, he⟩ := Option.isSome_iff_exists.mp hsome
    exact ⟨e, List.mem_filterMap.mpr ⟨i, hi, he⟩, pwm_entry_index s i e he⟩

/-! ## Claim theorems -/

/-- C1: the control policy `temp_to_pwm` returns 80 for every temperature
t ≤ 40, 128 for 40 < t ≤ 50, 180 for 50 < t ≤ 60, and 255 for t > 60;
each boundary value (exactly 40, 50, 60) yields the lower bracket's duty. -/
theorem policy_brackets (q : ℚ) :
    (q ≤ 40 → temp_to_pwm (F32.fin q) = 80) ∧
    (40 < q → q ≤ 50 → temp_to_pwm (F32.fin q) = 128) ∧
    (50 < q → q ≤ 60 → temp_to_pwm (F32.fin q) = 180) ∧
    (60 < q → temp_to_pwm (F32.fin q) = 255) ∧
    temp_to_pwm (F32.fin 40) = 80 ∧ temp_to_pwm (F32.fin 50) = 128 ∧
    temp_to_pwm (F32.fin 60) = 180 := by
  refine ⟨fun h => ?_, fun ha hb => ?_, fun ha hb => ?_, fun h => ?_, ?_, ?_, ?_⟩
  · rw [temp_to_pwm_fin, if_pos h]
  · rw [temp_to_pwm_fin, if_neg (by linarith), if_pos hb]
  · rw [temp_to_pwm_fin, if_neg (by linarith), if_neg (by linarith), if_pos hb]
  · rw [temp_to_pwm_fin, if_neg (by linarith), if_neg (by linarith), if_neg (by linarith)]
  · rw [temp_to_pwm_fin]; norm_num
  · rw [temp_to_pwm_fin]; norm_num
  · rw [temp_to_pwm_fin]; norm_num

/-- Witness for C1: 45 degrees lies in the second bracket, 40 on the
boundary takes the lower bracket. -/
theorem policy_brackets_witness :
    temp_to_pwm (F32.fin 45) = 128 ∧ temp_to_pwm (F32.fin 40) = 80 :=
  ⟨(policy_brackets 45).2.1 (by norm_num) (by norm_num),
    (policy_brackets 40).1 (by norm_num)⟩

/-- C8: `temp_to_pwm` is total and pure: every input (NaN included) yields
one of the four duty constants, and equal inputs yield equal outputs.  The
source function takes no state at all, so it is embedded as a state-free
function: it cannot affect any state. -/
theorem policy_total_pure (t t' : F32) (h : t = t') :
    temp_to_pwm t = temp_to_pwm t' ∧
    (temp_to_pwm t = 80 ∨ temp_to_pwm t = 128 ∨ temp_to_pwm t = 180 ∨
      temp_to_pwm t = 255) := by
  subst h
  refine ⟨rfl, ?_⟩
  cases t with
  | nan => right; right; right; rfl
  | fin q =>
      rw [temp_to_pwm_fin]
      split_ifs <;> simp

/-- Witness for C8 at the input 45. -/
theorem policy_total_pure_witness :
    temp_to_pwm (F32.fin 45) = temp_to_pwm (F32.fin 45) ∧
    (temp_to_pwm (F32.fin 45) = 80 ∨ temp_to_pwm (F32.fin 45) = 128 ∨
      temp_to_pwm (F32.fin 45) = 180 ∨ temp_to_pwm (F32.fin 45) = 255) :=
  policy_total_pure (F32.fin 45) (F32.fin 45) rfl

/-- C9: on NaN every `<=` guard of `temp_to_pwm` is false — NaN is not
greater than 60 either — and the catch-all arm yields 255. -/
theorem policy_nan_catch_all :
    temp_to_pwm F32.nan = 255 ∧
    f32Le F32.nan (F32.fin 40) = false ∧
    f32Le F32.nan (F32.fin 50) = false ∧
    f32Le F32.nan (F32.fin 60) = false ∧
    f32Gt F32.nan (F32.fin 60) = false :=
  ⟨rfl, rfl, rfl, rfl, rfl⟩

/-- C10: discovery compares the `name` file's content after trimming
surrounding whitespace: content that is the target identifier surrounded
by whitespace (e.g. a trailing newline) trims back to the identifier,
makes the per-entry test succeed, and makes discovery return that entry. -/
theorem discovery_matches_trimmed (sensor content : String) (ws1 ws2 : List Char)
    (fw : List String) (pre post : List Subtree)
    (h1 : ws1.all isRustWhitespace) (h2 : ws2.all isRustWhitespace)
    (hfix : trimChars sensor.data = sensor.data)
    (hcontent : content.data = ws1 ++ sensor.data ++ ws2)
    (hpre : ∀ s' ∈ pre, matchesName s' sensor = false) :
    rustTrim content = sensor ∧
    matchesName ⟨[("name", content)], fw⟩ sensor = true ∧
    find_hwmon_path ⟨Except.ok (pre ++ ⟨[("name", content)], fw⟩ :: post)⟩ sensor =
      Except.ok pre.length := by
  have ht : rustTrim content = sensor :=
    rustTrim_surround content sensor ws1 ws2 h1 h2 hfix hcontent
  have hm : matchesName ⟨[("name", content)], fw⟩ sensor = true := by
    simp [matchesName, lookupAttr, ht]
  refine ⟨ht, hm, ?_⟩
  have hf := findFirst_append_first (fun s => matchesName s sensor) pre
    ⟨[("name", content)], fw⟩ post hpre hm 0
  simp [find_hwmon_path, hf]

/-- Witness for C10: the content `"k10temp\n"` (identifier plus trailing
newline) is matched against the identifier `"k10temp"`. -/
theorem discovery_matches_trimmed_witness :
    rustTrim "k10temp\n" = "k10temp" ∧
    matchesName ⟨[("name", "k10temp\n")], []⟩ "k10temp" = true ∧
    find_hwmon_path ⟨Except.ok [⟨[("name", "k10temp\n")], []⟩]⟩ "k10temp" =
      Except.ok 0 := by
  have h := discovery_matches_trimmed "k10temp" "k10temp\n" [] ['\n'] [] [] []
    (by decide) (by decide) (by decide) (by decide) (by simp)
  exact ⟨h.1, h.2.1, h.2.2⟩

/-- C5 counterexample: with a root whose directory read fails with
`PermissionDenied` (an unreadable root), discovery propagates that error
instead of `NotFound`. -/
theorem discovery_unreadable_counterexample :
    find_hwmon_path_dynamic ⟨Except.error ErrKind.permissionDenied⟩ =
      Except.error ErrKind.permissionDenied ∧
    find_hwmon_path_dynamic ⟨Except.error ErrKind.permissionDenied⟩ ≠
      Except.error ErrKind.notFound := by
  refine ⟨rfl, ?_⟩
  intro h
  rw [show find_hwmon_path_dynamic ⟨Except.error ErrKind.permissionDenied⟩ =
        Except.error ErrKind.permissionDenied from rfl] at h
  injection h with h
  exact absurd h (by decide)

/-- C5 (amended): discovery scans the root's children in order, reads each
child's `name` when present, returns the first match; it fails with
`NotFound` when no child matches; when the root is unreadable it
propagates the underlying directory-read error unchanged (`NotFound` only
when that error is itself `NotFound`); a discovery that fails performs no
attribute writes (`set_pwm`/`set_mode` return the tree unchanged). -/
theorem discovery_spec (root : Root) (l pre post : List Subtree) (s : Subtree)
    (e : ErrKind) :
    (root.dir = Except.error e → find_hwmon_path_dynamic root = Except.error e) ∧
    (root.dir = Except.ok l → (∀ s' ∈ l, matchesAnyCandidate s' = false) →
      find_hwmon_path_dynamic root = Except.error ErrKind.notFound) ∧
    (root.dir = Except.ok (pre ++ s :: post) →
      (∀ s' ∈ pre, matchesAnyCandidate s' = false) → matchesAnyCandidate s = true →
      find_hwmon_path_dynamic root = Except.ok pre.length) ∧
    (∀ e', find_hwmon_path_dynamic root = Except.error e' →
      ∀ i v m, set_pwm root i v = (root, Except.error e') ∧
        set_mode root i m = (root, Except.error e')) := by
  refine ⟨fun hdir => ?_, fun hdir hnone => ?_, fun hdir hpre hs => ?_,
    fun e' hfail i v m => ?_⟩
  · simp [find_hwmon_path_dynamic, hdir]
  · simp [find_hwmon_path_dynamic, hdir,
      (findFirst_eq_none_iff matchesAnyCandidate l 0).mpr hnone]
  · have hf := findFirst_append_first matchesAnyCandidate pre s post hpre hs 0
    simp [find_hwmon_path_dynamic, hdir, hf]
  · exact ⟨by simp [set_pwm, hfail], by simp [set_mode, hfail]⟩

/-- Witness for C5 (amended): on a root with no children at all discovery
fails with `NotFound`, and the failed discovery leaves the tree unchanged
through `set_pwm` and `set_mode`. -/
theorem discovery_spec_witness :
    find_hwmon_path_dynamic demoEmptyRoot = Except.error ErrKind.notFound ∧
    set_pwm demoEmptyRoot 1 200 = (demoEmptyRoot, Except.error ErrKind.notFound) ∧
    set_mode demoEmptyRoot 1 "manual" = (demoEmptyRoot, Except.error ErrKind.notFound) := by
  have h := discovery_spec demoEmptyRoot [] [] [] ⟨[], []⟩ ErrKind.notFound
  have h2 := h.2.1 rfl (by simp)
  exact ⟨h2, (h.2.2.2 ErrKind.notFound h2 1 200 "manual").1,
    (h.2.2.2 ErrKind.notFound h2 1 200 "manual").2⟩

/-- C2: `read_cpu_temperature` locates the subtree whose `name` matches
`"k10temp"` exactly, reads its `temp1_input`, parses it as a signed
integer of milli-degrees Celsius and divides by 1000; it fails with
`NotFound` when no subtree matches and with `InvalidData` when the content
is non-numeric; on a tree with one `k10temp` subtree whose `temp1_input`
is `"45000"` it returns 45. -/
theorem read_temperature_spec (root : Root) (l : List Subtree)
    (hdir : root.dir = Except.ok l) :
    ((∀ s ∈ l, matchesName s "k10temp" = false) →
      read_cpu_temperature root = Except.error ErrKind.notFound) ∧
    (∀ i s raw, find_hwmon_path root "k10temp" = Except.ok i →
      l[i]? = some s → lookupAttr s.attrs "temp1_input" = some raw →
      (∀ m : ℤ, parseI32 (rustTrim raw) = some m →
        read_cpu_temperature root = Except.ok ((m : ℚ) / 1000)) ∧
      (parseI32 (rustTrim raw) = none →
        read_cpu_temperature root = Except.error ErrKind.invalidData)) ∧
    (read_cpu_temperature demoK10Root = Except.ok 45 ∧
      read_cpu_temperature
          ⟨Except.ok [⟨[("name", "k10temp"), ("temp1_input", "oops")], []⟩]⟩ =
        Except.error ErrKind.invalidData) := by
  refine ⟨fun hnone => ?_, fun i s raw hfind hget hlook => ⟨fun m hm => ?_, fun hm => ?_⟩,
    ?_, rfl⟩
  · have hf : find_hwmon_path root "k10temp" = Except.error ErrKind.notFound := by
      simp [find_hwmon_path, hdir,
        (findFirst_eq_none_iff (fun s => matchesName s "k10temp") l 0).mpr hnone]
    simp [read_cpu_temperature, K10TEMP_SENSOR_NAME, hf]
  · simp [read_cpu_temperature, K10TEMP_SENSOR_NAME, hfind, subtreeAt, hdir, hget,
      hlook, hm]
  · simp [read_cpu_temperature, K10TEMP_SENSOR_NAME, hfind, subtreeAt, hdir, hget,
      hlook, hm]
  · have h45 : read_cpu_temperature demoK10Root =
        Except.ok (((45000 : ℤ) : ℚ) / 1000) := rfl
    rw [h45]
    norm_num

/-- Witness for C2: the spec's demo tree (`k10temp`, `temp1_input` 45000)
yields 45 degrees. -/
theorem read_temperature_spec_witness :
    read_cpu_temperature demoK10Root = Except.ok 45 :=
  ((read_temperature_spec demoK10Root [demoK10Sub] rfl).2.2).1

/-- C7: `set_mode` with a mode string other than `"manual"`/`"auto"`
fails with `InvalidInput` before any write — the tree, hence the enable
attribute, is returned exactly as it was — while `"manual"` writes `"1"`
and `"auto"` writes `"2"` to `pwmN_enable`. -/
theorem set_mode_spec (root : Root) (l : List Subtree) (i idx : Nat) (s : Subtree)
    (mode : String)
    (hdir : root.dir = Except.ok l)
    (hfind : find_hwmon_path_dynamic root = Except.ok i)
    (hget : l[i]? = some s) :
    (mode ≠ "manual" → mode ≠ "auto" →
      set_mode root idx mode = (root, Except.error ErrKind.invalidInput)) ∧
    (pwmEnableAttr idx ∉ s.failWrites →
      (mode = "manual" →
        ∃ s1, set_mode root idx mode = (setSubtreeAt root i s1, Except.ok ()) ∧
          lookupAttr s1.attrs (pwmEnableAttr idx) = some "1") ∧
      (mode = "auto" →
        ∃ s1, set_mode root idx mode = (setSubtreeAt root i s1, Except.ok ()) ∧
          lookupAttr s1.attrs (pwmEnableAttr idx) = some "2")) := by
  constructor
  · intro hm ha
    have hval : mode_to_enable_val mode = none := by
      unfold mode_to_enable_val
      split <;> simp_all
    simp [set_mode, hfind, subtreeAt, hdir, hget, hval]
  · intro hw
    constructor
    · rintro rfl
      refine ⟨⟨setAttrList s.attrs (pwmEnableAttr idx) "1", s.failWrites⟩, ?_, ?_⟩
      · simp [set_mode, hfind, subtreeAt, hdir, hget, mode_to_enable_val, writeAttr, hw]
      · exact lookupAttr_set_self s.attrs (pwmEnableAttr idx) "1"
    · rintro rfl
      refine ⟨⟨setAttrList s.attrs (pwmEnableAttr idx) "2", s.failWrites⟩, ?_, ?_⟩
      · simp [set_mode, hfind, subtreeAt, hdir, hget, mode_to_enable_val, writeAttr, hw]
      · exact lookupAttr_set_self s.attrs (pwmEnableAttr idx) "2"

/-- Witness for C7: on the demo actuator tree, `set_mode 1 "bogus"` fails
with `InvalidInput` leaving the tree untouched, and `set_mode 1 "auto"`
writes `"2"` to `pwm1_enable`. -/
theorem set_mode_spec_witness :
    set_mode demoActRoot 1 "bogus" = (demoActRoot, Except.error ErrKind.invalidInput) ∧
    ∃ s1, set_mode demoActRoot 1 "auto" = (setSubtreeAt demoActRoot 0 s1, Except.ok ()) ∧
      lookupAttr s1.attrs (pwmEnableAttr 1) = some "2" := by
  have hb := set_mode_spec demoActRoot [demoActSub] 0 1 demoActSub "bogus" rfl rfl rfl
  have ha := set_mode_spec demoActRoot [demoActSub] 0 1 demoActSub "auto" rfl rfl rfl
  exact ⟨hb.1 (by decide) (by decide), (ha.2 (by simp [demoActSub])).2 rfl⟩

/-- C3: `set_pwm` writes `"1"` to `pwmN_enable` first and the value to
`pwmN` only afterwards; a failing write yields `IOError`; when the value
write fails after the enable write succeeded, the enable write stays in
place (no rollback); with no `pwmN_max` the reported percent is computed
against 255; concretely, `set_pwm 1 200` on a subtree without `pwm1_max`
leaves `pwm1_enable` = `"1"`, `pwm1` = `"200"` and reports ≈78.4%. -/
theorem set_value_spec (root : Root) (l : List Subtree) (i idx value : Nat) (s : Subtree)
    (hdir : root.dir = Except.ok l)
    (hfind : find_hwmon_path_dynamic root = Except.ok i)
    (hget : l[i]? = some s) :
    (pwmEnableAttr idx ∈ s.failWrites →
      set_pwm root idx value = (root, Except.error ErrKind.ioError)) ∧
    (pwmEnableAttr idx ∉ s.failWrites → pwmAttr idx ∈ s.failWrites →
      ∃ s1, set_pwm root idx value = (setSubtreeAt root i s1, Except.error ErrKind.ioError) ∧
        lookupAttr s1.attrs (pwmEnableAttr idx) = some "1" ∧
        lookupAttr s1.attrs (pwmAttr idx) = lookupAttr s.attrs (pwmAttr idx)) ∧
    (pwmEnableAttr idx ∉ s.failWrites → pwmAttr idx ∉ s.failWrites →
      ∃ s2, set_pwm root idx value =
          (setSubtreeAt root i s2, Except.ok ((value : ℚ) / (maxScale s2 idx : ℚ) * 100)) ∧
        lookupAttr s2.attrs (pwmEnableAttr idx) = some "1" ∧
        lookupAttr s2.attrs (pwmAttr idx) = some (toString value) ∧
        (lookupAttr s.attrs (pwmMaxAttr idx) = none → maxScale s2 idx = 255)) ∧
    ((set_pwm demoActRoot 1 200).1 =
        ⟨Except.ok [⟨[("name", "nct6775\n"), ("pwm1", "200"), ("pwm1_enable", "1")], []⟩]⟩ ∧
      ∃ q : ℚ, (set_pwm demoActRoot 1 200).2 = Except.ok q ∧ |q - 784 / 10| < 1 / 20) := by
  refine ⟨fun hfail => ?_, fun hok hfail => ?_, fun hok1 hok2 => ?_, rfl, ?_⟩
  · simp [set_pwm, hfind, subtreeAt, hdir, hget, writeAttr, hfail]
  · refine ⟨⟨setAttrList s.attrs (pwmEnableAttr idx) "1", s.failWrites⟩, ?_, ?_, ?_⟩
    · simp [set_pwm, hfind, subtreeAt, hdir, hget, writeAttr, hok, hfail]
    · exact lookupAttr_set_self s.attrs (pwmEnableAttr idx) "1"
    · exact lookupAttr_set_ne s.attrs (pwmEnableAttr idx) "1" (pwmAttr idx)
        (pwmAttr_ne_enable idx)
  · refine ⟨⟨setAttrList (setAttrList s.attrs (pwmEnableAttr idx) "1")
        (pwmAttr idx) (toString value), s.failWrites⟩, ?_, ?_, ?_, ?_⟩
    · simp [set_pwm, hfind, subtreeAt, hdir, hget, writeAttr, hok1, hok2]
    · rw [lookupAttr_set_ne _ _ _ _ (Ne.symm (pwmAttr_ne_enable idx))]
      exact lookupAttr_set_self s.attrs (pwmEnableAttr idx) "1"
    · exact lookupAttr_set_self _ (pwmAttr idx) (toString value)
    · intro hmax
      unfold maxScale
      rw [lookupAttr_set_ne _ _ _ _ (pwmMaxAttr_ne_pwm idx),
        lookupAttr_set_ne _ _ _ _ (pwmMaxAttr_ne_enable idx), hmax]
  · exact ⟨((200 : ℕ) : ℚ) / ((255 : ℕ) : ℚ) * 100, rfl, by norm_num [abs_lt]⟩

/-- Witness for C3: the spec's concrete example, `set_pwm 1 200` on the
demo actuator tree with no `pwm1_max`. -/
theorem set_value_spec_witness :
    (set_pwm demoActRoot 1 200).1 =
      ⟨Except.ok [⟨[("name", "nct6775\n"), ("pwm1", "200"), ("pwm1_enable", "1")], []⟩]⟩ ∧
    ∃ q : ℚ, (set_pwm demoActRoot 1 200).2 = Except.ok q ∧ |q - 784 / 10| < 1 / 20 :=
  ⟨(set_value_spec demoActRoot [demoActSub] 0 1 200 demoActSub rfl rfl rfl).2.2.2.1,
    (set_value_spec demoActRoot [demoActSub] 0 1 200 demoActSub rfl rfl rfl).2.2.2.2⟩

/-- C6: for every index i in 1..=7, `list_pwm` reports an entry for i
exactly when both `pwmN` and `pwmN_enable` exist; the value defaults to 0
on parse failure; the mode is `"manual"` for enable `"1"`, `"auto"` for
`"2"`, `"unknown"` otherwise; the max-scale comes from `pwmN_max` when
present and is 255 otherwise; percent = value/max·100; indices with a
missing attribute are silently skipped; concretely, with `pwm1` = 128,
`pwm1_enable` = 1 and no `pwm1_max`, the report is index 1, value 128,
percent ≈50.2, mode `"manual"`. -/
theorem list_actuators_spec (s : Subtree) (i : Nat) (h1 : 1 ≤ i) (h7 : i ≤ 7) :
    ((∃ e ∈ list_pwm_entries s, e.index = i) ↔
      (hasAttr s (pwmAttr i) = true ∧ hasAttr s (pwmEnableAttr i) = true)) ∧
    (∀ rawVal rawEnable,
      lookupAttr s.attrs (pwmAttr i) = some rawVal →
      lookupAttr s.attrs (pwmEnableAttr i) = some rawEnable →
      pwm_entry s i = some ⟨i, (parseU8 (rustTrim rawVal)).getD 0,
        (((parseU8 (rustTrim rawVal)).getD 0 : ℕ) : ℚ) / ((maxScale s i : ℕ) : ℚ) * 100,
        enable_mode_label (rustTrim rawEnable)⟩) ∧
    (∀ rawVal, parseU8 rawVal = none → (parseU8 rawVal).getD 0 = 0) ∧
    (enable_mode_label "1" = "manual" ∧ enable_mode_label "2" = "auto") ∧
    (∀ eTrim, eTrim ≠ "1" → eTrim ≠ "2" → enable_mode_label eTrim = "unknown") ∧
    (lookupAttr s.attrs (pwmMaxAttr i) = none → maxScale s i = 255) ∧
    (∀ rawMax m, lookupAttr s.attrs (pwmMaxAttr i) = some rawMax →
      parseU8 (rustTrim rawMax) = some m → maxScale s i = m) ∧
    ((hasAttr s (pwmAttr i) = false ∨ hasAttr s (pwmEnableAttr i) = false) →
      pwm_entry s i = none) ∧
    (∃ q : ℚ, list_pwm_entries demoActSub = [⟨1, 128, q, "manual"⟩] ∧
      |q - 502 / 10| < 1 / 20) := by
  refine ⟨?_, fun rawVal rawEnable hv he => ?_, fun rawVal h => ?_, ⟨rfl, rfl⟩,
    fun eTrim hn1 hn2 => ?_, fun hmax => ?_, fun rawMax m hmax hp => ?_, ?_, ?_⟩
  · have hr : i ∈ List.range' 1 7 := List.mem_range'_1.mpr ⟨h1, by omega⟩
    simp only [list_pwm_entries]
    rw [mem_filterMap_pwm_entry, pwm_entry_isSome]
    simp [hr, Bool.and_eq_true]
  · simp [pwm_entry, hv, he]
  · simp [h]
  · unfold enable_mode_label
    split <;> simp_all
  · unfold maxScale
    rw [hmax]
  · unfold maxScale
    rw [hmax]
    simp [hp]
  · rintro (hf | hf)
    · have hnone : lookupAttr s.attrs (pwmAttr i) = none := by
        simpa [hasAttr, Option.not_isSome_iff_eq_none] using hf
      simp [pwm_entry, hnone]
    · have hnone : lookupAttr s.attrs (pwmEnableAttr i) = none := by
        simpa [hasAttr, Option.not_isSome_iff_eq_none] using hf
      rcases hv : lookupAttr s.attrs (pwmAttr i) with _ | rawVal <;>
        simp [pwm_entry, hv, hnone]
  · exact ⟨((128 : ℕ) : ℚ) / ((255 : ℕ) : ℚ) * 100, rfl, by norm_num [abs_lt]⟩

/-- Witness for C6: the spec's concrete actuator listing example. -/
theorem list_actuators_spec_witness :
    ∃ q : ℚ, list_pwm_entries demoActSub = [⟨1, 128, q, "manual"⟩] ∧
      |q - 502 / 10| < 1 / 20 :=
  (list_actuators_spec demoActSub 1 (by norm_num) (by norm_num)).2.2.2.2.2.2.2.2

/-- C4: every iteration of the control loop samples the temperature,
computes the duty with `temp_to_pwm`, applies it to the configured index
via `set_pwm`, then sleeps a fixed 5 seconds; any failure of the sample
or apply step ends the loop immediately — the error is propagated
unchanged, no further events occur, and there is no retry. -/
theorem control_loop_spec (root : Root) (idx n : Nat) :
    (∀ t root1 r, read_cpu_temperature root = Except.ok t →
      set_pwm root idx (temp_to_pwm (F32.fin t)) = (root1, Except.ok r) →
      daemon_step root idx =
        ([Event.sample t, Event.applyDuty idx (temp_to_pwm (F32.fin t)), Event.sleep 5],
          root1, Except.ok ())) ∧
    (∀ e, read_cpu_temperature root = Except.error e →
      run_daemon (n + 1) root idx = ([], root, Except.error e)) ∧
    (∀ t root1 e, read_cpu_temperature root = Except.ok t →
      set_pwm root idx (temp_to_pwm (F32.fin t)) = (root1, Except.error e) →
      run_daemon (n + 1) root idx = ([Event.sample t], root1, Except.error e)) ∧
    (∀ tr root1, daemon_step root idx = (tr, root1, Except.ok ()) →
      run_daemon (n + 1) root idx =
        (tr ++ (run_daemon n root1 idx).1,
          (run_daemon n root1 idx).2.1, (run_daemon n root1 idx).2.2)) := by
  refine ⟨fun t root1 r hread hset => ?_, fun e hread => ?_,
    fun t root1 e hread hset => ?_, fun tr root1 hstep => ?_⟩
  · simp [daemon_step, hread, hset]
  · simp [run_daemon, daemon_step, hread]
  · simp [run_daemon, daemon_step, hread, hset]
  · simp [run_daemon, hstep]

/-- Witness for C4: with no subtrees the first sample fails and the loop
ends with `NotFound`; with a readable sensor but an actuator whose enable
write fails, the loop samples once and ends with `IOError` — in both runs
the error is propagated unchanged and nothing is retried. -/
theorem control_loop_spec_witness :
    run_daemon 1 demoEmptyRoot 1 = ([], demoEmptyRoot, Except.error ErrKind.notFound) ∧
    run_daemon 1 demoDaemonRoot 1 =
      ([Event.sample demoTemp], demoDaemonRoot, Except.error ErrKind.ioError) :=
  ⟨(control_loop_spec demoEmptyRoot 1 0).2.1 ErrKind.notFound rfl,
    (control_loop_spec demoDaemonRoot 1 0).2.2.1 demoTemp demoDaemonRoot
      ErrKind.ioError rfl rfl⟩

end Fancontrol
